import Mathlib

/-!
Verification of the time-expanded flow network builder (`data_model.c`).

The C source is parameterized by the compile-time constants `N_HUBS`,
`T` and `M_RESTRICTED` (the spec calls them `H`, `T`, `R`).  We embed the
id helpers and the builder as Lean functions of those parameters; the
reference configuration of the source is `H = 3`, `T = 3`, `R = 1`.
-/

/-- C macro `HUB_TIME_COUNT = (T+1) * N_HUBS`. -/
def HUB_TIME_COUNT (H T : Nat) : Nat := (T + 1) * H

/-- C macro `HUB_SPLIT_COUNT = 2 * HUB_TIME_COUNT`. -/
def HUB_SPLIT_COUNT (H T : Nat) : Nat := 2 * HUB_TIME_COUNT H T

/-- C macro `TRANSIT_OFFSET = HUB_SPLIT_COUNT`. -/
def TRANSIT_OFFSET (H T : Nat) : Nat := HUB_SPLIT_COUNT H T

/-- C macro `TRANSIT_COUNT = (T+1) * M_RESTRICTED`. -/
def TRANSIT_COUNT (T R : Nat) : Nat := (T + 1) * R

/-- C macro `TOTAL_NODES = HUB_SPLIT_COUNT + TRANSIT_COUNT`. -/
def TOTAL_NODES (H T R : Nat) : Nat := HUB_SPLIT_COUNT H T + TRANSIT_COUNT T R

/-- C macro `MAX_EDGES = 128`. -/
def MAX_EDGES : Nat := 128

/-- C function `hub_time(u, t) = t * N_HUBS + u`. -/
def hub_time (H u t : Nat) : Nat := t * H + u

/-- C function `IN(u, t) = 2 * hub_time(u, t)`, the arrival id. -/
def IN (H u t : Nat) : Nat := 2 * hub_time H u t

/-- C function `OUT(u, t) = 2 * hub_time(u, t) + 1`, the departure id. -/
def OUT (H u t : Nat) : Nat := 2 * hub_time H u t + 1

/-- C function `TRANSIT(eid, t_wait) = TRANSIT_OFFSET + t_wait * M_RESTRICTED + eid`. -/
def TRANSIT (H T R eid t_wait : Nat) : Nat :=
  TRANSIT_OFFSET H T + t_wait * R + eid

/-- An emitted edge: the `from` argument of the `add_edge` call plus the
`Edge` payload `{ to, cap }` stored in the C struct. -/
structure Edge where
  src : Nat
  dst : Nat
  cap : Nat
deriving DecidableEq, Repr

/-- The adjacency store: node id to its ordered outgoing list (`to`, `cap`),
the functional view of `AdjList graph[TOTAL_NODES]`. -/
def Store : Type := Nat → List (Nat × Nat)

/-- C function `add_edge(from, to, cap)`: append `(to, cap)` at position
`graph[from].count` of the source node's list and bump the count. -/
def add_edge (g : Store) (src dst cap : Nat) : Store :=
  fun n => if n = src then g n ++ [(dst, cap)] else g n

/-- Replay a sequence of `add_edge` calls (in order) on a store. -/
def applyEdges (es : List Edge) (g : Store) : Store :=
  es.foldl (fun g e => add_edge g e.src e.dst e.cap) g

/-- Step 1 of `build_example`: capacity-split edges
`IN(u,t) -> OUT(u,t)` with capacity 1, for `t = 0..T`, `u = 0..N_HUBS-1`. -/
def splitEdges (T : Nat) : List Edge :=
  (List.range (T + 1)).flatMap (fun t =>
    (List.range 3).map (fun u => ⟨IN 3 u t, OUT 3 u t, 1⟩))

/-- Step 2 of `build_example`: wait edges at hubs 0 and 2,
`OUT(u,t) -> IN(u,t+1)` with capacity 100, for `t = 0..T-1`. -/
def waitEdges (T : Nat) : List Edge :=
  (List.range T).flatMap (fun t =>
    [⟨OUT 3 0 t, IN 3 0 (t + 1), 100⟩, ⟨OUT 3 2 t, IN 3 2 (t + 1), 100⟩])

/-- Step 3 of `build_example`: restricted route `0 -> 1` (eid 0), for
`t = 0..T-2` (the C loop `for (t = 0; t <= T-2; t++)` on `int`s runs
`max 0 (T-1)` times, which is `List.range (T - 1)` on `Nat`):
`OUT(0,t) -> TRANSIT(0,t+1)` cap 1, then `TRANSIT(0,t+1) -> IN(1,t+2)` cap 100. -/
def transitEdges (T R : Nat) : List Edge :=
  (List.range (T - 1)).flatMap (fun t =>
    [⟨OUT 3 0 t, TRANSIT 3 T R 0 (t + 1), 1⟩,
     ⟨TRANSIT 3 T R 0 (t + 1), IN 3 1 (t + 2), 100⟩])

/-- Step 4 of `build_example`: normal edge `1 -> 2`,
`OUT(1,t) -> IN(2,t+1)` with capacity 1, for `t = 0..T-1`. -/
def normalEdges (T : Nat) : List Edge :=
  (List.range T).map (fun t => ⟨OUT 3 1 t, IN 3 2 (t + 1), 1⟩)

/-- The full `add_edge` call sequence of `build_example`, in emission order. -/
def buildEdges (T R : Nat) : List Edge :=
  splitEdges T ++ waitEdges T ++ transitEdges T R ++ normalEdges T

/-- The global `graph` after `build_example()` runs on the zero-initialized
store. -/
def graph (T R : Nat) : Store :=
  applyEdges (buildEdges T R) (fun _ => [])

/-! ## The node id space: semantic coordinates and the indexer bijection -/

/-- A semantic coordinate of the node id space: a hub-arrival, a
hub-departure or a transit-slot identity (spec section 3). -/
inductive Coord where
  | arrival (hub t : Nat)
  | departure (hub t : Nat)
  | transit (route t : Nat)
deriving DecidableEq, Repr

/-- Validity of a semantic coordinate for parameters `H`, `T`, `R`. -/
def Coord.valid (H T R : Nat) : Coord → Prop
  | .arrival u t => u < H ∧ t ≤ T
  | .departure u t => u < H ∧ t ≤ T
  | .transit r t => r < R ∧ t ≤ T

/-- The node id of a semantic coordinate, computed by the C id helpers. -/
def Coord.nodeId (H T R : Nat) : Coord → Nat
  | .arrival u t => IN H u t
  | .departure u t => OUT H u t
  | .transit r t => TRANSIT H T R r t

lemma hub_time_lt {H T u t : Nat} (hu : u < H) (ht : t ≤ T) :
    hub_time H u t < HUB_TIME_COUNT H T := by
  unfold hub_time HUB_TIME_COUNT
  calc t * H + u < t * H + H := by omega
    _ = (t + 1) * H := by ring
    _ ≤ (T + 1) * H := Nat.mul_le_mul_right H (by omega)

lemma hub_time_mod {H u t : Nat} (hu : u < H) : hub_time H u t % H = u := by
  unfold hub_time
  rw [Nat.mul_comm, Nat.mul_add_mod]
  exact Nat.mod_eq_of_lt hu

lemma hub_time_div {H u t : Nat} (hu : u < H) : hub_time H u t / H = t := by
  unfold hub_time
  rw [Nat.mul_comm, Nat.mul_add_div (by omega)]
  simp [Nat.div_eq_of_lt hu]

lemma hub_time_inj {H u t u' t' : Nat} (hu : u < H) (hu' : u' < H)
    (h : hub_time H u t = hub_time H u' t') : u = u' ∧ t = t' := by
  constructor
  · rw [← hub_time_mod (t := t) hu, h, hub_time_mod hu']
  · rw [← hub_time_div (t := t) hu, h, hub_time_div hu']

lemma hub_time_div_mod {H : Nat} (k : Nat) :
    hub_time H (k % H) (k / H) = k := by
  unfold hub_time
  rw [Nat.mul_comm]
  exact Nat.div_add_mod k H

lemma TRANSIT_eq {H T R r t : Nat} :
    TRANSIT H T R r t = TRANSIT_OFFSET H T + hub_time R r t := by
  unfold TRANSIT hub_time
  ring


lemma IN_lt {H T u t : Nat} (hu : u < H) (ht : t ≤ T) :
    IN H u t < HUB_SPLIT_COUNT H T := by
  have := hub_time_lt hu ht
  unfold IN HUB_SPLIT_COUNT
  omega

lemma OUT_lt {H T u t : Nat} (hu : u < H) (ht : t ≤ T) :
    OUT H u t < HUB_SPLIT_COUNT H T := by
  have := hub_time_lt hu ht
  unfold OUT HUB_SPLIT_COUNT
  omega

lemma TRANSIT_OFFSET_le_TRANSIT {H T R r t : Nat} :
    TRANSIT_OFFSET H T ≤ TRANSIT H T R r t :=
  Nat.le_trans (Nat.le_add_right _ _) (Nat.le_add_right _ _)

lemma TRANSIT_lt {H T R r t : Nat} (hr : r < R) (ht : t ≤ T) :
    TRANSIT H T R r t < TOTAL_NODES H T R := by
  have := hub_time_lt hr ht
  rw [TRANSIT_eq]
  unfold TOTAL_NODES TRANSIT_OFFSET TRANSIT_COUNT HUB_TIME_COUNT at *
  omega

/-- C1.  The Node Indexer is a bijection: for every choice of the
parameters `H`, `T`, `R`, the map sending a valid semantic coordinate
(arrival `(hub,t)` with `hub < H`, `t ≤ T`; departure `(hub,t)`; transit
slot `(route,t)` with `route < R`, `t ≤ T`) to its node id — `IN(hub,t) =
2*(t*H+hub)` (arrival), `OUT(hub,t) = 2*(t*H+hub)+1` (departure),
`TRANSIT(route,t) = 2*H*(T+1) + t*R + route` — is a bijection onto
`[0, TOTAL_NODES)` with `TOTAL_NODES = 2*H*(T+1) + R*(T+1)`; in
particular each id function is injective on its own domain and the three
families are pairwise non-colliding. -/
theorem node_indexer_bijection (H T R : Nat) :
    (∀ u t u' t', u < H → t ≤ T → u' < H → t' ≤ T →
      hub_time H u t = hub_time H u' t' → u = u' ∧ t = t') ∧
    Set.BijOn (Coord.nodeId H T R) {c | c.valid H T R}
      (Set.Iio (TOTAL_NODES H T R)) := by
  refine ⟨fun u t u' t' hu _ hu' _ h => hub_time_inj hu hu' h, ?_, ?_, ?_⟩
  · -- maps valid coordinates into [0, TOTAL_NODES)
    intro c hc
    simp only [Set.mem_setOf_eq] at hc
    simp only [Set.mem_Iio]
    cases c with
    | arrival u t =>
        have := IN_lt hc.1 hc.2
        unfold TOTAL_NODES at *
        simp only [Coord.nodeId]
        omega
    | departure u t =>
        have := OUT_lt hc.1 hc.2
        unfold TOTAL_NODES at *
        simp only [Coord.nodeId]
        omega
    | transit r t =>
        simpa only [Coord.nodeId] using TRANSIT_lt hc.1 hc.2
  · -- injective on the set of valid coordinates
    intro c₁ h₁ c₂ h₂ heq
    simp only [Set.mem_setOf_eq] at h₁ h₂
    cases c₁ with
    | arrival u t =>
      cases c₂ with
      | arrival u' t' =>
          simp only [Coord.nodeId, IN] at heq
          have hht : hub_time H u t = hub_time H u' t' := by omega
          obtain ⟨hu, ht⟩ := hub_time_inj h₁.1 h₂.1 hht
          simp [hu, ht]
      | departure u' t' =>
          simp only [Coord.nodeId, IN, OUT] at heq
          omega
      | transit r' t' =>
          have h3 := IN_lt h₁.1 h₁.2
          have h4 := TRANSIT_OFFSET_le_TRANSIT (H := H) (T := T) (R := R)
            (r := r') (t := t')
          simp only [Coord.nodeId] at heq
          unfold TRANSIT_OFFSET at h4
          omega
    | departure u t =>
      cases c₂ with
      | arrival u' t' =>
          simp only [Coord.nodeId, IN, OUT] at heq
          omega
      | departure u' t' =>
          simp only [Coord.nodeId, OUT] at heq
          have hht : hub_time H u t = hub_time H u' t' := by omega
          obtain ⟨hu, ht⟩ := hub_time_inj h₁.1 h₂.1 hht
          simp [hu, ht]
      | transit r' t' =>
          have h3 := OUT_lt h₁.1 h₁.2
          have h4 := TRANSIT_OFFSET_le_TRANSIT (H := H) (T := T) (R := R)
            (r := r') (t := t')
          simp only [Coord.nodeId] at heq
          unfold TRANSIT_OFFSET at h4
          omega
    | transit r t =>
      cases c₂ with
      | arrival u' t' =>
          have h3 := IN_lt h₂.1 h₂.2
          have h4 := TRANSIT_OFFSET_le_TRANSIT (H := H) (T := T) (R := R)
            (r := r) (t := t)
          simp only [Coord.nodeId] at heq
          unfold TRANSIT_OFFSET at h4
          omega
      | departure u' t' =>
          have h3 := OUT_lt h₂.1 h₂.2
          have h4 := TRANSIT_OFFSET_le_TRANSIT (H := H) (T := T) (R := R)
            (r := r) (t := t)
          simp only [Coord.nodeId] at heq
          unfold TRANSIT_OFFSET at h4
          omega
      | transit r' t' =>
          simp only [Coord.nodeId, TRANSIT_eq] at heq
          have hht : hub_time R r t = hub_time R r' t' := by omega
          obtain ⟨hr, ht⟩ := hub_time_inj h₁.1 h₂.1 hht
          simp [hr, ht]
  · -- every id below TOTAL_NODES is hit by a valid coordinate
    intro n hn
    simp only [Set.mem_Iio] at hn
    rw [Set.mem_image]
    by_cases hsplit : n < HUB_SPLIT_COUNT H T
    · -- a hub arrival or departure node
      have hH : 0 < H := by
        rcases Nat.eq_zero_or_pos H with h0 | h0
        · subst h0
          unfold HUB_SPLIT_COUNT HUB_TIME_COUNT at hsplit
          simp at hsplit
        · exact h0
      have hk2 : n / 2 < HUB_TIME_COUNT H T := by
        unfold HUB_SPLIT_COUNT at hsplit
        omega
      have hu : n / 2 % H < H := Nat.mod_lt _ hH
      have ht : n / 2 / H ≤ T := by
        have h2 : n / 2 / H < T + 1 := by
          rw [Nat.div_lt_iff_lt_mul hH]
          unfold HUB_TIME_COUNT at hk2
          omega
        omega
      have hht : hub_time H (n / 2 % H) (n / 2 / H) = n / 2 := hub_time_div_mod _
      by_cases hpar : n % 2 = 0
      · refine ⟨.arrival (n / 2 % H) (n / 2 / H), ⟨hu, ht⟩, ?_⟩
        simp only [Coord.nodeId, IN, hht]
        omega
      · refine ⟨.departure (n / 2 % H) (n / 2 / H), ⟨hu, ht⟩, ?_⟩
        simp only [Coord.nodeId, OUT, hht]
        omega
    · -- a transit-slot node
      have hm : n - HUB_SPLIT_COUNT H T < TRANSIT_COUNT T R := by
        unfold TOTAL_NODES at hn
        omega
      have hR : 0 < R := by
        rcases Nat.eq_zero_or_pos R with h0 | h0
        · subst h0
          unfold TRANSIT_COUNT at hm
          simp at hm
        · exact h0
      have hr : (n - HUB_SPLIT_COUNT H T) % R < R := Nat.mod_lt _ hR
      have ht : (n - HUB_SPLIT_COUNT H T) / R ≤ T := by
        have h2 : (n - HUB_SPLIT_COUNT H T) / R < T + 1 := by
          rw [Nat.div_lt_iff_lt_mul hR]
          unfold TRANSIT_COUNT at hm
          omega
        omega
      refine ⟨.transit ((n - HUB_SPLIT_COUNT H T) % R)
        ((n - HUB_SPLIT_COUNT H T) / R), ⟨hr, ht⟩, ?_⟩
      simp only [Coord.nodeId, TRANSIT_eq, hub_time_div_mod]
      unfold TRANSIT_OFFSET
      omega

/-- Witness for C1: the intermediate index `hub_time` is injective at a
concrete valid input of the reference parameters. -/
theorem node_indexer_bijection_witness : (1 : Nat) = 1 ∧ (2 : Nat) = 2 :=
  (node_indexer_bijection 3 3 1).1 1 2 1 2 (by decide) (by decide)
    (by decide) (by decide) rfl

/-! ## The adjacency store after a build -/

lemma applyEdges_apply (es : List Edge) (g : Store) (n : Nat) :
    applyEdges es g n =
      g n ++ (es.filter (fun e => e.src == n)).map (fun e => (e.dst, e.cap)) := by
  induction es generalizing g with
  | nil => simp [applyEdges]
  | cons e es ih =>
      have h1 : applyEdges (e :: es) g =
          applyEdges es (add_edge g e.src e.dst e.cap) := rfl
      rw [h1, ih]
      by_cases h : e.src = n
      · subst h
        simp [add_edge, List.filter_cons]
      · have h2 : ¬(n = e.src) := fun hh => h hh.symm
        simp [add_edge, List.filter_cons, h, h2]

lemma graph_apply (T R n : Nat) :
    graph T R n =
      ((buildEdges T R).filter (fun e => e.src == n)).map
        (fun e => (e.dst, e.cap)) := by
  rw [graph, applyEdges_apply]
  simp

lemma length_flatMap_const {α : Type} (f : Nat → List α) (c n : Nat)
    (hc : ∀ i, (f i).length = c) :
    ((List.range n).flatMap f).length = c * n := by
  induction n with
  | zero => simp
  | succ m ih =>
      rw [List.range_succ, List.flatMap_append, List.length_append, ih]
      simp [hc, Nat.mul_succ]

lemma drop_flatMap_const {α : Type} (f : Nat → List α) (c : Nat)
    (hc : ∀ i, (f i).length = c) {n t : Nat} (ht : t < n) :
    ∃ rest, ((List.range n).flatMap f).drop (c * t) = f t ++ rest := by
  induction n with
  | zero => omega
  | succ m ih =>
      rw [List.range_succ, List.flatMap_append]
      rcases Nat.lt_or_ge t m with h | h
      · obtain ⟨rest, hrest⟩ := ih h
        have hle : c * t ≤ ((List.range m).flatMap f).length := by
          rw [length_flatMap_const f c m hc]
          exact Nat.mul_le_mul_left c (by omega)
        rw [List.drop_append_of_le_length hle, hrest]
        exact ⟨rest ++ [m].flatMap f, by rw [List.append_assoc]⟩
      · have ht2 : t = m := by omega
        subst ht2
        have hlen : ((List.range t).flatMap f).length = c * t :=
          length_flatMap_const f c t hc
        rw [← hlen, List.drop_append_of_le_length (Nat.le_refl _),
          List.drop_length]
        exact ⟨[], by simp⟩

lemma flatMap_pair_getElem {α : Type} (a b : Nat → α) {n t : Nat} (ht : t < n) :
    ((List.range n).flatMap (fun i => [a i, b i]))[2 * t]? = some (a t) ∧
    ((List.range n).flatMap (fun i => [a i, b i]))[2 * t + 1]? = some (b t) := by
  obtain ⟨rest, hrest⟩ :=
    drop_flatMap_const (fun i => [a i, b i]) 2 (fun i => rfl) ht
  constructor
  · have h0 :=
      (List.getElem?_drop ((List.range n).flatMap fun i => [a i, b i]) (2 * t) 0).symm
    rw [hrest] at h0
    simpa using h0
  · have h1 :=
      (List.getElem?_drop ((List.range n).flatMap fun i => [a i, b i]) (2 * t) 1).symm
    rw [hrest] at h1
    simpa using h1

/-- C2.  In the reference configuration (`H = 3`, `T = 3`, `R = 1`,
restricted route `(0,1)`, waitable hubs `{0,2}`, `hub_capacity = 1`,
`wait_capacity = 100`, `transit_capacity = 100`,
`direct_edge_capacity = 1`) the build emits exactly 12 capacity-split
edges, 6 wait edges, 4 transit-route edges and 3 unrestricted edges —
25 edges in total, which is also the total size of the adjacency store
over the whole id space. -/
theorem reference_build_edge_counts :
    (splitEdges 3).length = 12 ∧
    (waitEdges 3).length = 6 ∧
    (transitEdges 3 1).length = 4 ∧
    (normalEdges 3).length = 3 ∧
    (buildEdges 3 1).length = 25 ∧
    ((List.range (TOTAL_NODES 3 3 1)).map
      (fun n => (graph 3 1 n).length)).sum = 25 := by
  refine ⟨by decide, by decide, by decide, by decide, by decide, ?_⟩
  rfl

/-- C8.  Boundary behaviour in `T`: a `T = 0` build has no wait edges and
no transit edges whatever `R` is, and a `T = 1` build has no transit
edges but does have wait edges and unrestricted edges. -/
theorem boundary_T0_T1 (R : Nat) :
    waitEdges 0 = [] ∧
    transitEdges 0 R = [] ∧
    transitEdges 1 R = [] ∧
    (waitEdges 1).length ≠ 0 ∧
    (normalEdges 1).length ≠ 0 := by
  refine ⟨rfl, rfl, rfl, by decide, by decide⟩

lemma splitEdges_bound {T : Nat} {e : Edge} (he : e ∈ splitEdges T) :
    e.src < TRANSIT_OFFSET 3 T ∧ e.dst < TRANSIT_OFFSET 3 T := by
  unfold splitEdges at he
  rw [List.mem_flatMap] at he
  obtain ⟨t, ht, he⟩ := he
  rw [List.mem_range] at ht
  rw [List.mem_map] at he
  obtain ⟨u, hu, rfl⟩ := he
  rw [List.mem_range] at hu
  unfold TRANSIT_OFFSET HUB_SPLIT_COUNT HUB_TIME_COUNT
  dsimp only [IN, OUT, hub_time]
  omega

lemma waitEdges_bound {T : Nat} {e : Edge} (he : e ∈ waitEdges T) :
    e.src < TRANSIT_OFFSET 3 T ∧ e.dst < TRANSIT_OFFSET 3 T := by
  unfold waitEdges at he
  rw [List.mem_flatMap] at he
  obtain ⟨t, ht, he⟩ := he
  rw [List.mem_range] at ht
  simp only [List.mem_cons, List.not_mem_nil, or_false] at he
  unfold TRANSIT_OFFSET HUB_SPLIT_COUNT HUB_TIME_COUNT
  rcases he with rfl | rfl <;> dsimp only [IN, OUT, hub_time] <;> omega

lemma normalEdges_bound {T : Nat} {e : Edge} (he : e ∈ normalEdges T) :
    e.src < TRANSIT_OFFSET 3 T ∧ e.dst < TRANSIT_OFFSET 3 T := by
  unfold normalEdges at he
  rw [List.mem_map] at he
  obtain ⟨t, ht, rfl⟩ := he
  rw [List.mem_range] at ht
  unfold TRANSIT_OFFSET HUB_SPLIT_COUNT HUB_TIME_COUNT
  dsimp only [IN, OUT, hub_time]
  omega

/-- C3.  Restricted-route transit edges: for the restricted route
`(0, 1)` (route index 0) and every `t` with `t + 2 ≤ T` the builder
emits, at positions `2t` and `2t + 1` of the transit step,
`OUT(0,t) -> TRANSIT(0,t+1)` with the direct-edge capacity 1 and then
`TRANSIT(0,t+1) -> IN(1,t+2)` with the transit capacity 100; every edge
of the other three steps has both endpoints below `TRANSIT_OFFSET`
while every transit-slot id is at least `TRANSIT_OFFSET`, so no other
edge touches a transit slot; and when `T < 2` the step emits no edges at
all. -/
theorem transit_route_edges (T R : Nat) :
    (∀ t, t + 2 ≤ T →
      (transitEdges T R)[2 * t]? =
        some ⟨OUT 3 0 t, TRANSIT 3 T R 0 (t + 1), 1⟩ ∧
      (transitEdges T R)[2 * t + 1]? =
        some ⟨TRANSIT 3 T R 0 (t + 1), IN 3 1 (t + 2), 100⟩) ∧
    (∀ e ∈ splitEdges T ++ waitEdges T ++ normalEdges T,
      e.src < TRANSIT_OFFSET 3 T ∧ e.dst < TRANSIT_OFFSET 3 T) ∧
    (∀ r t, TRANSIT_OFFSET 3 T ≤ TRANSIT 3 T R r t) ∧
    (T < 2 → transitEdges T R = []) := by
  refine ⟨?_, ?_, ?_, ?_⟩
  · intro t ht
    unfold transitEdges
    exact flatMap_pair_getElem
      (fun i => (⟨OUT 3 0 i, TRANSIT 3 T R 0 (i + 1), 1⟩ : Edge))
      (fun i => (⟨TRANSIT 3 T R 0 (i + 1), IN 3 1 (i + 2), 100⟩ : Edge))
      (by omega)
  · intro e he
    rcases List.mem_append.mp he with h12 | h3
    · rcases List.mem_append.mp h12 with h1 | h2
      · exact splitEdges_bound h1
      · exact waitEdges_bound h2
    · exact normalEdges_bound h3
  · intro r t
    exact TRANSIT_OFFSET_le_TRANSIT
  · intro h
    have h1 : T - 1 = 0 := by omega
    unfold transitEdges
    rw [h1]
    rfl

/-- Witness for C3 at the reference parameters: the first transit edge of
the `T = 3` build, and the empty transit step of a `T = 1` build. -/
theorem transit_route_edges_witness :
    (transitEdges 3 1)[0]? = some ⟨OUT 3 0 0, TRANSIT 3 3 1 0 1, 1⟩ ∧
    transitEdges 1 1 = [] :=
  ⟨by simpa using ((transit_route_edges 3 1).1 0 (by decide)).1,
   (transit_route_edges 1 1).2.2.2 (by decide)⟩

/-- C4.  Emission order is the contract: the build's `add_edge` call
sequence is precisely the capacity-split edges, then the wait edges,
then the restricted-route transit edges, then the unrestricted edges;
after construction every node's adjacency list is exactly its outgoing
edges of that sequence in emission (append) order; in particular, for
`OUT(0,0)` and `OUT(0,1)` in the reference build the wait edge precedes
the transit edge. -/
theorem adjacency_insertion_order (T R : Nat) :
    buildEdges T R =
      splitEdges T ++ waitEdges T ++ transitEdges T R ++ normalEdges T ∧
    (∀ n, graph T R n =
      ((buildEdges T R).filter (fun e => e.src == n)).map
        (fun e => (e.dst, e.cap))) ∧
    graph 3 1 (OUT 3 0 0) = [(IN 3 0 1, 100), (TRANSIT 3 3 1 0 1, 1)] ∧
    graph 3 1 (OUT 3 0 1) = [(IN 3 0 2, 100), (TRANSIT 3 3 1 0 2, 1)] :=
  ⟨rfl, fun n => graph_apply T R n, rfl, rfl⟩

/-! ## Wait edges: exactly the waitable hubs -/

lemma splitEdges_shape {T : Nat} {e : Edge} (he : e ∈ splitEdges T) :
    ∃ t ≤ T, ∃ u < 3, e = ⟨IN 3 u t, OUT 3 u t, 1⟩ := by
  unfold splitEdges at he
  rw [List.mem_flatMap] at he
  obtain ⟨t, ht, he⟩ := he
  rw [List.mem_range] at ht
  rw [List.mem_map] at he
  obtain ⟨u, hu, rfl⟩ := he
  rw [List.mem_range] at hu
  exact ⟨t, by omega, u, hu, rfl⟩

lemma waitEdges_shape {T : Nat} {e : Edge} (he : e ∈ waitEdges T) :
    ∃ t < T, e = ⟨OUT 3 0 t, IN 3 0 (t + 1), 100⟩ ∨
      e = ⟨OUT 3 2 t, IN 3 2 (t + 1), 100⟩ := by
  unfold waitEdges at he
  rw [List.mem_flatMap] at he
  obtain ⟨t, ht, he⟩ := he
  rw [List.mem_range] at ht
  simp only [List.mem_cons, List.not_mem_nil, or_false] at he
  exact ⟨t, ht, he⟩

lemma transitEdges_shape {T R : Nat} {e : Edge} (he : e ∈ transitEdges T R) :
    ∃ t, t + 2 ≤ T ∧
      (e = ⟨OUT 3 0 t, TRANSIT 3 T R 0 (t + 1), 1⟩ ∨
       e = ⟨TRANSIT 3 T R 0 (t + 1), IN 3 1 (t + 2), 100⟩) := by
  unfold transitEdges at he
  rw [List.mem_flatMap] at he
  obtain ⟨t, ht, he⟩ := he
  rw [List.mem_range] at ht
  simp only [List.mem_cons, List.not_mem_nil, or_false] at he
  exact ⟨t, by omega, he⟩

lemma normalEdges_shape {T : Nat} {e : Edge} (he : e ∈ normalEdges T) :
    ∃ t < T, e = ⟨OUT 3 1 t, IN 3 2 (t + 1), 1⟩ := by
  unfold normalEdges at he
  rw [List.mem_map] at he
  obtain ⟨t, ht, rfl⟩ := he
  rw [List.mem_range] at ht
  exact ⟨t, ht, rfl⟩

lemma flatMap_range_ite {α : Type} (n t : Nat) (L : List α) :
    ((List.range n).flatMap (fun i => if i = t then L else [])) =
      if t < n then L else [] := by
  induction n with
  | zero => simp
  | succ m ih =>
      rw [List.range_succ, List.flatMap_append, ih]
      by_cases h1 : t < m
      · have h2 : m ≠ t := by omega
        have h3 : t < m + 1 := by omega
        simp [h1, h2, h3]
      · by_cases h2 : t = m
        · subst h2
          simp [h1]
        · have h3 : ¬t < m + 1 := by omega
          have h4 : m ≠ t := fun hh => h2 hh.symm
          simp [h1, h3, h4]

lemma filter_wait_pred_split (T t u : Nat) :
    (splitEdges T).filter
      (fun e => e.src == OUT 3 u t && e.dst == IN 3 u (t + 1)) = [] := by
  rw [List.filter_eq_nil_iff]
  intro e he
  obtain ⟨t', ht', u', hu', rfl⟩ := splitEdges_shape he
  simp only [Bool.and_eq_true, beq_iff_eq, not_and]
  unfold IN OUT hub_time
  intro h1
  omega

lemma filter_wait_pred_transit (T R t u : Nat) (hu : u < 3) :
    (transitEdges T R).filter
      (fun e => e.src == OUT 3 u t && e.dst == IN 3 u (t + 1)) = [] := by
  rw [List.filter_eq_nil_iff]
  intro e he
  obtain ⟨t', ht', he | he⟩ := transitEdges_shape he <;> subst he <;>
    simp only [Bool.and_eq_true, beq_iff_eq, not_and] <;>
    unfold TRANSIT TRANSIT_OFFSET HUB_SPLIT_COUNT HUB_TIME_COUNT IN OUT
      hub_time <;>
    intro h1 h2 <;>
    omega

lemma filter_wait_pred_normal (T t u : Nat) :
    (normalEdges T).filter
      (fun e => e.src == OUT 3 u t && e.dst == IN 3 u (t + 1)) = [] := by
  rw [List.filter_eq_nil_iff]
  intro e he
  obtain ⟨t', ht', rfl⟩ := normalEdges_shape he
  simp only [Bool.and_eq_true, beq_iff_eq, not_and]
  unfold IN OUT hub_time
  intro h1 h2
  omega

lemma waitEdges_filter0 (T t : Nat) :
    (waitEdges T).filter
      (fun e => e.src == OUT 3 0 t && e.dst == IN 3 0 (t + 1)) =
      if t < T then [⟨OUT 3 0 t, IN 3 0 (t + 1), 100⟩] else [] := by
  unfold waitEdges
  rw [List.filter_flatMap]
  have hchunk : ∀ i,
      (([⟨OUT 3 0 i, IN 3 0 (i + 1), 100⟩,
         ⟨OUT 3 2 i, IN 3 2 (i + 1), 100⟩] : List Edge).filter
        (fun e => e.src == OUT 3 0 t && e.dst == IN 3 0 (t + 1))) =
      if i = t then [⟨OUT 3 0 t, IN 3 0 (t + 1), 100⟩] else [] := by
    intro i
    have hne2 : ((⟨OUT 3 2 i, IN 3 2 (i + 1), 100⟩ : Edge).src ==
        OUT 3 0 t) = false := by
      rw [beq_eq_false_iff_ne]
      dsimp only
      unfold OUT hub_time
      omega
    by_cases h : i = t
    · subst h
      simp [List.filter_cons, hne2]
    · have hne0 : ((⟨OUT 3 0 i, IN 3 0 (i + 1), 100⟩ : Edge).src ==
          OUT 3 0 t) = false := by
        rw [beq_eq_false_iff_ne]
        dsimp only
        unfold OUT hub_time
        omega
      simp [List.filter_cons, hne0, hne2, h]
  simp only [hchunk]
  exact flatMap_range_ite T t _

lemma waitEdges_filter2 (T t : Nat) :
    (waitEdges T).filter
      (fun e => e.src == OUT 3 2 t && e.dst == IN 3 2 (t + 1)) =
      if t < T then [⟨OUT 3 2 t, IN 3 2 (t + 1), 100⟩] else [] := by
  unfold waitEdges
  rw [List.filter_flatMap]
  have hchunk : ∀ i,
      (([⟨OUT 3 0 i, IN 3 0 (i + 1), 100⟩,
         ⟨OUT 3 2 i, IN 3 2 (i + 1), 100⟩] : List Edge).filter
        (fun e => e.src == OUT 3 2 t && e.dst == IN 3 2 (t + 1))) =
      if i = t then [⟨OUT 3 2 t, IN 3 2 (t + 1), 100⟩] else [] := by
    intro i
    have hne0 : ((⟨OUT 3 0 i, IN 3 0 (i + 1), 100⟩ : Edge).src ==
        OUT 3 2 t) = false := by
      rw [beq_eq_false_iff_ne]
      dsimp only
      unfold OUT hub_time
      omega
    by_cases h : i = t
    · subst h
      simp [List.filter_cons, hne0]
    · have hne2 : ((⟨OUT 3 2 i, IN 3 2 (i + 1), 100⟩ : Edge).src ==
          OUT 3 2 t) = false := by
        rw [beq_eq_false_iff_ne]
        dsimp only
        unfold OUT hub_time
        omega
      simp [List.filter_cons, hne0, hne2, h]
  simp only [hchunk]
  exact flatMap_range_ite T t _

lemma waitEdges_filter1 (T t : Nat) :
    (waitEdges T).filter
      (fun e => e.src == OUT 3 1 t && e.dst == IN 3 1 (t + 1)) = [] := by
  rw [List.filter_eq_nil_iff]
  intro e he
  obtain ⟨t', ht', he | he⟩ := waitEdges_shape he <;> subst he <;>
    simp only [Bool.and_eq_true, beq_iff_eq, not_and] <;>
    unfold IN OUT hub_time <;>
    intro h1 <;>
    omega

/-- C5.  Wait edges exist exactly at the waitable hubs: in every build
(any `T`, `R`) and for every `t < T` there is exactly one edge from
`OUT(0,t)` to `IN(0,t+1)` and exactly one from `OUT(2,t)` to
`IN(2,t+1)`, each with the wait capacity 100, while for hub 1 (not
waitable) no edge from `OUT(1,t)` to `IN(1,t+1)` exists for any `t`
and any capacity. -/
theorem wait_edges_waitable_hubs (T R t : Nat) :
    (t < T →
      (buildEdges T R).filter
          (fun e => e.src == OUT 3 0 t && e.dst == IN 3 0 (t + 1)) =
        [⟨OUT 3 0 t, IN 3 0 (t + 1), 100⟩] ∧
      (buildEdges T R).filter
          (fun e => e.src == OUT 3 2 t && e.dst == IN 3 2 (t + 1)) =
        [⟨OUT 3 2 t, IN 3 2 (t + 1), 100⟩]) ∧
    (buildEdges T R).filter
        (fun e => e.src == OUT 3 1 t && e.dst == IN 3 1 (t + 1)) = [] := by
  unfold buildEdges
  constructor
  · intro ht
    constructor
    · rw [List.filter_append, List.filter_append, List.filter_append,
        filter_wait_pred_split, waitEdges_filter0,
        filter_wait_pred_transit T R t 0 (by omega),
        filter_wait_pred_normal, if_pos ht]
      rfl
    · rw [List.filter_append, List.filter_append, List.filter_append,
        filter_wait_pred_split, waitEdges_filter2,
        filter_wait_pred_transit T R t 2 (by omega),
        filter_wait_pred_normal, if_pos ht]
      rfl
  · rw [List.filter_append, List.filter_append, List.filter_append,
      filter_wait_pred_split, waitEdges_filter1,
      filter_wait_pred_transit T R t 1 (by omega),
      filter_wait_pred_normal]
    rfl

/-- Witness for C5 at the reference build, `t = 0`: the unique hub-0 wait
edge and the absence of a hub-1 wait edge. -/
theorem wait_edges_waitable_hubs_witness :
    (buildEdges 3 1).filter
        (fun e => e.src == OUT 3 0 0 && e.dst == IN 3 0 1) =
      [⟨OUT 3 0 0, IN 3 0 1, 100⟩] ∧
    (buildEdges 3 1).filter
        (fun e => e.src == OUT 3 1 0 && e.dst == IN 3 1 1) = [] :=
  ⟨((wait_edges_waitable_hubs 3 1 0).1 (by decide)).1,
   (wait_edges_waitable_hubs 3 1 0).2⟩

/-- C9.  Memory safety of the reference build: every `add_edge` call of
`build_example` uses node ids inside `[0, TOTAL_NODES)`, and after the
build every node's out-degree is at most 2, strictly below the fixed
per-node bound `MAX_EDGES = 128`, so no write of `add_edge` lands past
either array bound and no edge is lost. -/
theorem reference_build_within_bounds :
    (∀ e ∈ buildEdges 3 1,
      e.src < TOTAL_NODES 3 3 1 ∧ e.dst < TOTAL_NODES 3 3 1) ∧
    (∀ n, (graph 3 1 n).length ≤ 2) ∧
    2 < MAX_EDGES := by
  refine ⟨by decide, ?_, by decide⟩
  intro n
  rcases Nat.lt_or_ge n (TOTAL_NODES 3 3 1) with h | h
  · have h' : n < 28 := h
    rw [graph_apply]
    interval_cases n <;> decide
  · have h' : 28 ≤ n := h
    rw [graph_apply]
    have hnil : (buildEdges 3 1).filter (fun e => e.src == n) = [] := by
      rw [List.filter_eq_nil_iff]
      intro e he
      have hsrc : e.src < 28 :=
        (by decide : ∀ e ∈ buildEdges 3 1, e.src < 28) e he
      simp only [beq_iff_eq]
      omega
    rw [hnil]
    simp

/-- Witness for C9 at the first emitted edge `IN(0,0) -> OUT(0,0)`. -/
theorem reference_build_within_bounds_witness :
    (⟨0, 1, 1⟩ : Edge).src < TOTAL_NODES 3 3 1 ∧
    (⟨0, 1, 1⟩ : Edge).dst < TOTAL_NODES 3 3 1 :=
  reference_build_within_bounds.1 ⟨0, 1, 1⟩ (by decide)

/-- C10.  In the reference build the transit slots for time 0 and time
`T = 3` (`TRANSIT(0,0) = 24` and `TRANSIT(0,3) = 27`) are allocated but
isolated: no emitted edge has either as an endpoint, so they have
neither outgoing nor incoming edges; every edge endpoint in the
transit-slot range is one of `TRANSIT(0,1)` or `TRANSIT(0,2)`. -/
theorem transit_boundary_slots_isolated :
    (∀ e ∈ buildEdges 3 1,
      e.src ≠ TRANSIT 3 3 1 0 0 ∧ e.dst ≠ TRANSIT 3 3 1 0 0 ∧
      e.src ≠ TRANSIT 3 3 1 0 3 ∧ e.dst ≠ TRANSIT 3 3 1 0 3) ∧
    graph 3 1 (TRANSIT 3 3 1 0 0) = [] ∧
    graph 3 1 (TRANSIT 3 3 1 0 3) = [] ∧
    (∀ e ∈ buildEdges 3 1,
      (TRANSIT_OFFSET 3 3 ≤ e.src →
        e.src = TRANSIT 3 3 1 0 1 ∨ e.src = TRANSIT 3 3 1 0 2) ∧
      (TRANSIT_OFFSET 3 3 ≤ e.dst →
        e.dst = TRANSIT 3 3 1 0 1 ∨ e.dst = TRANSIT 3 3 1 0 2)) :=
  ⟨by decide, rfl, rfl, by decide⟩

/-- Witness for C10 at the first transit edge `OUT(0,0) -> TRANSIT(0,1)`,
i.e. `1 -> 25`. -/
theorem transit_boundary_slots_isolated_witness :
    (⟨1, 25, 1⟩ : Edge).src ≠ TRANSIT 3 3 1 0 0 ∧
    (⟨1, 25, 1⟩ : Edge).dst ≠ TRANSIT 3 3 1 0 0 ∧
    (⟨1, 25, 1⟩ : Edge).src ≠ TRANSIT 3 3 1 0 3 ∧
    (⟨1, 25, 1⟩ : Edge).dst ≠ TRANSIT 3 3 1 0 3 :=
  transit_boundary_slots_isolated.1 ⟨1, 25, 1⟩ (by decide)

/-! ## The construction API of the spec, and the missing bound check -/

/-- Error kinds of the construction API (spec section 7). -/
inductive BuildError where
  | InvalidConfiguration
  | InvalidCoordinate
  | CapacityExceeded
deriving DecidableEq, Repr

/-- Modelled from the spec: the construction `Parameters` of sections 3
and 4.2.  The configurable assembler is not part of `data_model.c`,
which hardcodes the reference configuration; `R` is the length of
`restricted_routes`. -/
structure Parameters where
  H : Nat
  T : Nat
  hub_capacity : Nat
  waitable_hubs : List Nat
  wait_capacity : Nat
  restricted_routes : List (Nat × Nat)
  transit_capacity : Nat
  direct_edge_capacity : Nat
  unrestricted_routes : List (Nat × Nat)

/-- Modelled from the spec: the four emission steps of section 4.2 in
their fixed order — capacity-split edges, wait edges, restricted-route
transit edges, unrestricted route edges. -/
def assembleEdges (p : Parameters) : List Edge :=
  ((List.range (p.T + 1)).flatMap (fun t =>
    (List.range p.H).map (fun u =>
      ⟨IN p.H u t, OUT p.H u t, p.hub_capacity⟩))) ++
  ((List.range p.T).flatMap (fun t =>
    p.waitable_hubs.map (fun u =>
      ⟨OUT p.H u t, IN p.H u (t + 1), p.wait_capacity⟩))) ++
  (p.restricted_routes.enum.flatMap (fun ir =>
    (List.range (p.T - 1)).flatMap (fun t =>
      [⟨OUT p.H ir.2.1 t,
        TRANSIT p.H p.T p.restricted_routes.length ir.1 (t + 1),
        p.direct_edge_capacity⟩,
       ⟨TRANSIT p.H p.T p.restricted_routes.length ir.1 (t + 1),
        IN p.H ir.2.2 (t + 2), p.transit_capacity⟩]))) ++
  ((List.range p.T).flatMap (fun t =>
    p.unrestricted_routes.map (fun r =>
      ⟨OUT p.H r.1 t, IN p.H r.2 (t + 1), p.direct_edge_capacity⟩)))

/-- Modelled from the spec: `build_network` (section 6) validates the
restricted routes against `[0, H)` before emitting anything and only
then replays the emission on the store; on a validation failure it
returns `InvalidConfiguration` and no store. -/
def build_network (p : Parameters) (g : Store) : Except BuildError Store :=
  if p.restricted_routes.any (fun r => decide (p.H ≤ r.1 ∨ p.H ≤ r.2)) then
    Except.error BuildError.InvalidConfiguration
  else
    Except.ok (applyEdges (assembleEdges p) g)

/-- Sanity check of the spec model: on the reference configuration the
spec-modelled assembler reproduces exactly the edge sequence of
`build_example`. -/
lemma assembleEdges_reference :
    assembleEdges ⟨3, 3, 1, [0, 2], 100, [(0, 1)], 100, 1, [(1, 2)]⟩ =
      buildEdges 3 1 := by decide

/-- C6.  A restricted route naming a hub outside `[0, H)` makes
`build_network` fail with `InvalidConfiguration`; the check precedes all
emission, so no store is produced and the input store is never touched. -/
theorem build_network_invalid_route (p : Parameters) (g : Store)
    (h : ∃ r ∈ p.restricted_routes, p.H ≤ r.1 ∨ p.H ≤ r.2) :
    build_network p g = Except.error BuildError.InvalidConfiguration := by
  unfold build_network
  rw [if_pos]
  rw [List.any_eq_true]
  obtain ⟨r, hr, hor⟩ := h
  exact ⟨r, hr, by simpa using hor⟩

/-- Witness for C6: the reference configuration with its restricted route
replaced by `(0, 3)`, which names hub `3 = H`, out of range. -/
theorem build_network_invalid_route_witness :
    build_network ⟨3, 3, 1, [0, 2], 100, [(0, 3)], 100, 1, [(1, 2)]⟩
      (fun _ => []) = Except.error BuildError.InvalidConfiguration :=
  build_network_invalid_route _ _ ⟨(0, 3), by decide, by decide⟩

/-- C7 (behaviour of the code at the failing input).  The C `add_edge`
has no bound check: it is total, never fails, and after 129 calls on
the same source node that node's list holds 129 entries — the 129th
write happened at index 128, which is past the per-node bound
`MAX_EDGES = 128`, instead of failing with `CapacityExceeded`. -/
theorem add_edge_overflow_at_bound :
    (applyEdges (List.replicate 129 ⟨0, 1, 1⟩) (fun _ => []) 0).length = 129 ∧
    MAX_EDGES < 129 := by
  refine ⟨?_, by decide⟩
  rw [applyEdges_apply]
  have hf : (List.replicate 129 (⟨0, 1, 1⟩ : Edge)).filter
      (fun e => e.src == 0) = List.replicate 129 ⟨0, 1, 1⟩ := by
    rw [List.filter_eq_self]
    intro a ha
    rw [List.eq_of_mem_replicate ha]
    rfl
  rw [hf]
  simp
